import Mathlib

/-!
Verification of the QuickJS embedding layer (`src/js.c`) of libqjs.

The development shallowly embeds the parts of `src/js.c` that the checked
claims are about: the reentrancy/microtask driver, the unhandled-rejection
tracker, the constructor callback bridge, the reference manager's weak
observer protocol, ArrayBuffer creation, the string extractors, scalar
round-trips, and the teardown queue.

Conventions of the embedding:

* C unsigned 32-bit counters are `Nat` with explicit reduction mod `2 ^ 32`
  at the operations where the source can overflow.
* Engine ("QuickJS") primitives are external collaborators of the repository;
  each is modelled by the behavior the source relies on, at the granularity
  the claims need (for instance `JS_ExecutePendingJob` pops one job from a
  FIFO queue, and a job may enqueue further jobs and report promise
  rejections).
* Host callbacks are opaque parameters.
* Fallible allocation is an explicit `Bool`/function parameter.
-/

namespace LibQjs

/-- Modelled from the spec: the status-code enumeration lives in the public
header of the repository, which is not among the three sources in `src/`;
section 7 of the spec gives two internal failure codes, `pending_exception`
and `uncaught_exception`, and states that any return value below zero
signals failure. Their concrete values are chosen here as distinct negative
integers. -/
def js_pending_exception : Int := -1

/-- Modelled from the spec: see `js_pending_exception`. -/
def js_uncaught_exception : Int := -2

/-- Embedding of `js__error` (src/js.c:894-897): picks the failure status from the
context's pending-exception flag. -/
def js__error (hasException : Bool) : Int :=
  if hasException then js_pending_exception else js_uncaught_exception

/-- Engine value at the granularity the claims need: the integer tag carries
an `int32_t` payload (`JS_TAG_INT`), objects are identified by an allocation
id, and `exception` is the `JS_EXCEPTION` marker a native function returns
to signal a throw. -/
inductive JSVal where
  | undefined
  | null
  | boolean (b : Bool)
  | int32 (i : Int)
  | obj (id : Nat)
  | exception
deriving DecidableEq

/-- Engine primitive `JS_NewInt32`: wraps an `int32_t` in the integer tag. -/
def JS_NewInt32 (i : Int) : JSVal := JSVal.int32 i

/-- Engine primitive `JS_ToInt32` on the tags of this model: the integer tag is returned
exactly; booleans coerce through ToNumber; the remaining tags coerce through
the engine's ToNumber machinery, which is outside this repository and is
modelled by the NaN/zero default. -/
def JS_ToInt32 : JSVal → Int
  | JSVal.int32 i => i
  | JSVal.boolean b => if b then 1 else 0
  | _ => 0

/-- Embedding of `js_create_int32` (src/js.c:2101-2114): allocates a wrapper holding
`JS_NewInt32 value` and appends it to the active handle scope (the scope is
the list of rooted wrappers, append-only). Returns the updated scope and the
wrapper's value slot. -/
def js_create_int32 (scope : List JSVal) (value : Int) : List JSVal × JSVal :=
  let wrapper := JS_NewInt32 value
  (scope ++ [wrapper], wrapper)

/-- Embedding of `js_get_value_int32` (src/js.c:4044-4051): extracts through `JS_ToInt32`;
the call itself always succeeds. -/
def js_get_value_int32 (value : JSVal) : Int :=
  JS_ToInt32 value

/-- Result of one string-extractor call. `unitsWritten` counts the code
units the source stores into the caller's buffer (the `memcpy` count for the
UTF-8 extractor, the converter's full output count for the UTF-16/Latin-1
extractors); `terminatorIndex` is the index of the appended terminator when
one is appended; `requiredOut` is the length written through the result
pointer when the caller's buffer pointer is null; `reportedWritten` is the
count reported through the result pointer otherwise. -/
structure StrWrite where
  requiredOut : Option Nat
  unitsWritten : Nat
  terminatorIndex : Option Nat
  reportedWritten : Option Nat
  status : Int
deriving DecidableEq

/-- Embedding of `js_get_value_string_utf8` (src/js.c:4102-4124). `s` is the engine's
UTF-8 form of the string (`JS_ToCStringLen`), `strProvided` is whether the
caller passed a buffer, `cap` its capacity `len`. The copy is
`memcpy(str, cstr, written)` with `written = min cstr_len len`. -/
def js_get_value_string_utf8 (s : List Nat) (strProvided : Bool) (cap : Nat) : StrWrite :=
  let cstr_len := s.length
  if strProvided = false then
    { requiredOut := some cstr_len, unitsWritten := 0, terminatorIndex := none,
      reportedWritten := none, status := 0 }
  else if cap ≠ 0 then
    let written := min cstr_len cap
    { requiredOut := none, unitsWritten := written,
      terminatorIndex := if written < cap then some written else none,
      reportedWritten := some written, status := 0 }
  else
    { requiredOut := none, unitsWritten := 0, terminatorIndex := none,
      reportedWritten := some 0, status := 0 }

/-- Embedding of `js_get_value_string_utf16le` (src/js.c:4126-4150). The UTF conversion
library is external to the repository; it is a pair of parameters:
`len16 s` models `utf16_length_from_utf8` and `conv s` models the output of
`utf8_convert_to_utf16le`, which converts the whole input string with no
capacity argument — its entire output of `(conv s).length` units is stored
into the caller's buffer. -/
def js_get_value_string_utf16le (len16 : List Nat → Nat) (conv : List Nat → List Nat)
    (s : List Nat) (strProvided : Bool) (cap : Nat) : StrWrite :=
  let utf16_len := len16 s
  if strProvided = false then
    { requiredOut := some utf16_len, unitsWritten := 0, terminatorIndex := none,
      reportedWritten := none, status := 0 }
  else if cap ≠ 0 then
    let written := min utf16_len cap
    { requiredOut := none, unitsWritten := (conv s).length,
      terminatorIndex := if written < cap then some written else none,
      reportedWritten := some written, status := 0 }
  else
    { requiredOut := none, unitsWritten := 0, terminatorIndex := none,
      reportedWritten := some 0, status := 0 }

/-- Embedding of `js_get_value_string_latin1` (src/js.c:4152-4176): same shape as the
UTF-16 extractor with `latin1_length_from_utf8` / `utf8_convert_to_latin1`
as the external conversion pair; the converter again takes no capacity and
its whole output is stored into the caller's buffer. -/
def js_get_value_string_latin1 (lenL1 : List Nat → Nat) (conv : List Nat → List Nat)
    (s : List Nat) (strProvided : Bool) (cap : Nat) : StrWrite :=
  let latin1_len := lenL1 s
  if strProvided = false then
    { requiredOut := some latin1_len, unitsWritten := 0, terminatorIndex := none,
      reportedWritten := none, status := 0 }
  else if cap ≠ 0 then
    let written := min latin1_len cap
    { requiredOut := none, unitsWritten := (conv s).length,
      terminatorIndex := if written < cap then some written else none,
      reportedWritten := some written, status := 0 }
  else
    { requiredOut := none, unitsWritten := 0, terminatorIndex := none,
      reportedWritten := some 0, status := 0 }

/-- The C constant `UINT32_MAX`. -/
def UINT32_MAX : Nat := 2 ^ 32 - 1

/-- Outcome of an ArrayBuffer creation call: the returned status, whether a
RangeError was thrown as the pending exception, and the bytes of the created
buffer on success. -/
structure ABResult where
  status : Int
  thrownRangeError : Bool
  bytes : Option (List Nat)
deriving DecidableEq

/-- Embedding of `js_create_arraybuffer` (src/js.c:2850-2885): rejects a pending
exception, fails with a RangeError for `len > UINT32_MAX` or a failed
allocation (`allocOk = false`), otherwise allocates `len` bytes and zeroes
them (`memset(bytes, 0, len)`). On the error path `js_throw_range_error`
sets the pending exception, so `js__error` reports `js_pending_exception`. -/
def js_create_arraybuffer (hasException : Bool) (len : Nat) (allocOk : Bool) : ABResult :=
  if hasException then
    { status := js__error true, thrownRangeError := false, bytes := none }
  else if len > UINT32_MAX then
    { status := js__error true, thrownRangeError := true, bytes := none }
  else if allocOk = false then
    { status := js__error true, thrownRangeError := true, bytes := none }
  else
    { status := 0, thrownRangeError := false, bytes := some (List.replicate len 0) }

/-- Embedding of `js_create_unsafe_arraybuffer` (src/js.c:2930-2963): identical to
`js_create_arraybuffer` except that the allocated bytes are not zeroed;
`malloc` is the external allocator, and the buffer contents are whatever
`malloc len` holds. -/
def js_create_unsafe_arraybuffer (malloc : Nat → List Nat) (hasException : Bool)
    (len : Nat) (allocOk : Bool) : ABResult :=
  if hasException then
    { status := js__error true, thrownRangeError := false, bytes := none }
  else if len > UINT32_MAX then
    { status := js__error true, thrownRangeError := true, bytes := none }
  else if allocOk = false then
    { status := js__error true, thrownRangeError := true, bytes := none }
  else
    { status := 0, thrownRangeError := false, bytes := some (malloc len) }

/-- The constant `2 ^ 32`, the modulus of the C `uint32_t` counters. -/
def U32 : Nat := 2 ^ 32

/-- State of one `js_ref_t` (src/js.c:153-158) together with the weak
observer it may have installed on its target. `count` is the `uint32_t`
strong count; `finalized` is the flag flipped by
`js__on_reference_finalize`; `valueIsObjLike` is
`JS_IsObject(reference->value) || JS_IsFunction(env, reference->value)` for
the reference's current `value` slot (which becomes `JS_NULL`, hence not
object-like, once finalized); `weakInstalled` is whether the hidden
external-finalizer property of `js__set_weak_reference` is currently
present on the target. The reference's symbol key and the engine reference
counts it duplicates are not needed by the claims. -/
structure RefState where
  count : Nat
  finalized : Bool
  valueIsObjLike : Bool
  weakInstalled : Bool
deriving DecidableEq

/-- Embedding of `js__set_weak_reference` (src/js.c:1359-1383): a no-op on a finalized
reference, otherwise installs the hidden external observer on the target
(and trades the strong engine reference for it). -/
def js__set_weak_reference (s : RefState) : RefState :=
  if s.finalized then s else { s with weakInstalled := true }

/-- Embedding of `js__clear_weak_reference` (src/js.c:1385-1407): a no-op on a finalized
reference, otherwise neutralizes and deletes the hidden external observer
(restoring a strong engine reference). -/
def js__clear_weak_reference (s : RefState) : RefState :=
  if s.finalized then s else { s with weakInstalled := false }

/-- Embedding of `js_create_reference` (src/js.c:1409-1439): duplicates the target,
stores the caller's initial `count`, and — when the target is an object or
function — creates the hidden symbol key and, if `count == 0`, installs the
weak observer. The caller's `count` argument is a C `uint32_t` and is
therefore below `U32`. -/
def js_create_reference (valueIsObjLike : Bool) (count : Nat) : RefState :=
  let s : RefState :=
    { count := count, finalized := false, valueIsObjLike := valueIsObjLike,
      weakInstalled := false }
  if valueIsObjLike then
    (if s.count = 0 then js__set_weak_reference s else s)
  else s

/-- Embedding of `js_reference_ref` (src/js.c:1459-1474): increments the `uint32_t`
count (wrapping at `U32`); on the transition to count 1 with an object-like
target it clears the weak observer. Returns `(status, reported count, new
state)`; the status is always 0. -/
def js_reference_ref (s : RefState) : Int × Nat × RefState :=
  let s1 := { s with count := (s.count + 1) % U32 }
  let s2 :=
    if s1.count = 1 then
      (if s1.valueIsObjLike then js__clear_weak_reference s1 else s1)
    else s1
  (0, s2.count, s2)

/-- Embedding of `js_reference_unref` (src/js.c:1476-1493): decrements only when the
count is positive; on the transition to count 0 with an object-like target
it re-installs the weak observer. Returns `(status, reported count, new
state)`; the status is always 0. -/
def js_reference_unref (s : RefState) : Int × Nat × RefState :=
  let s1 :=
    if s.count > 0 then
      let t := { s with count := s.count - 1 }
      if t.count = 0 then
        (if t.valueIsObjLike then js__set_weak_reference t else t)
      else t
    else s
  (0, s1.count, s1)

/-- The engine collecting a weakly-held target: the hidden external
observer's finalizer (`js__on_reference_finalize`, src/js.c:1351-1357) sets
`value := JS_NULL` and `finalized := true`, and the observer object is
collected together with its host. Possible only while the observer is
installed (a positive count holds a strong engine reference). -/
def refFinalize (s : RefState) : RefState :=
  if s.weakInstalled then
    { s with finalized := true, valueIsObjLike := false, weakInstalled := false }
  else s

/-- One host operation on a live reference. -/
inductive RefOp where
  | ref
  | unref
  | finalize
deriving DecidableEq

/-- Applies one operation to a reference state. -/
def refStep (s : RefState) : RefOp → RefState
  | RefOp.ref => (js_reference_ref s).2.2
  | RefOp.unref => (js_reference_unref s).2.2
  | RefOp.finalize => refFinalize s

/-- Applies a sequence of operations, oldest first. -/
def refApply (s : RefState) (ops : List RefOp) : RefState :=
  ops.foldl refStep s

/-- The spec's weak-observer invariant: the observer is installed iff the
count is 0, the reference is not finalized, and the target is (still) an
object or function. -/
def weakInv (s : RefState) : Prop :=
  s.weakInstalled = (decide (s.count = 0) && !s.finalized && s.valueIsObjLike)

instance (s : RefState) : Decidable (weakInv s) := by
  unfold weakInv; infer_instance

/-- Holds (as `true`) when no `ref` operation of the trace runs on a saturated
`uint32_t` count (which would wrap the count back to 0). -/
def refNoWrap (s : RefState) : List RefOp → Bool
  | [] => true
  | op :: rest =>
    (!(op = RefOp.ref && s.count = U32 - 1)) && refNoWrap (refStep s op) rest

/-- One `js_teardown_task_t` (src/js.c:35-47): either an immediate callback
or a deferred callback with its handle. Callbacks, callback data and handle
addresses are abstract, represented by numbers. -/
inductive TeardownTask where
  | immediate (cb : Nat) (data : Nat)
  | deferred (handle : Nat) (cb : Nat) (data : Nat)
deriving DecidableEq

/-- The environment state the teardown claims need: the pending-exception
flag of the context, the `destroying` flag, the teardown queue (head = most
recently prepended), the `uint32_t` outstanding-reference count `refs`, and
whether `uv_async_send(&env->teardown)` has been fired. -/
structure TDEnv where
  hasException : Bool
  destroying : Bool
  tasks : List TeardownTask
  refs : Nat
  teardownWoken : Bool
deriving DecidableEq

/-- The `intrusive_list_for_each` walk of `js_remove_teardown_callback`:
removes the first immediate task matching callback and data, if any. -/
def removeFirstImmediate (cb data : Nat) : List TeardownTask → List TeardownTask
  | [] => []
  | t :: rest =>
    match t with
    | TeardownTask.immediate cb1 data1 =>
      if cb1 = cb ∧ data1 = data then rest
      else t :: removeFirstImmediate cb data rest
    | TeardownTask.deferred _ _ _ => t :: removeFirstImmediate cb data rest

/-- Embedding of `js_remove_teardown_callback` (src/js.c:5270-5289): fails on a pending
exception; returns success untouched when the environment is destroying;
otherwise removes the first matching immediate task (also success when no
task matches). -/
def js_remove_teardown_callback (e : TDEnv) (cb data : Nat) : Int × TDEnv :=
  if e.hasException then (js__error true, e)
  else if e.destroying then (0, e)
  else (0, { e with tasks := removeFirstImmediate cb data e.tasks })

/-- The `intrusive_list_for_each` walk of
`js_finish_deferred_teardown_callback`: `some` of the queue with the first
deferred task carrying the handle removed, or `none` when no task carries
it. -/
def findRemoveDeferred (h : Nat) : List TeardownTask → Option (List TeardownTask)
  | [] => none
  | t :: rest =>
    match t with
    | TeardownTask.deferred h1 _ _ =>
      if h1 = h then some rest
      else (findRemoveDeferred h rest).map (fun l => t :: l)
    | TeardownTask.immediate _ _ =>
      (findRemoveDeferred h rest).map (fun l => t :: l)

/-- Number of deferred tasks of the queue carrying handle `h`. -/
def countHandle (h : Nat) : List TeardownTask → Nat
  | [] => 0
  | TeardownTask.deferred h1 _ _ :: rest =>
    (if h1 = h then 1 else 0) + countHandle h rest
  | TeardownTask.immediate _ _ :: rest => countHandle h rest

/-- Embedding of `js_finish_deferred_teardown_callback` (src/js.c:5311-5337): tolerates a
pending exception; walks the queue for the deferred task carrying the
handle. If absent, returns -1 leaving the environment untouched. If found,
removes the task, decrements the `uint32_t` outstanding count (`--env->refs`,
wrapping at zero), fires the teardown async handle when the count reaches
zero while destroying, and returns 0. -/
def js_finish_deferred_teardown_callback (e : TDEnv) (h : Nat) : Int × TDEnv :=
  match findRemoveDeferred h e.tasks with
  | none => (-1, e)
  | some tasks1 =>
    let refs1 := (e.refs + (U32 - 1)) % U32
    (0, { e with tasks := tasks1, refs := refs1,
                 teardownWoken :=
                   e.teardownWoken || (decide (refs1 = 0) && e.destroying) })

/-- One call of the engine into the promise-rejection tracker
(`js__on_promise_rejection`): the promise (by object identity), the
rejection reason, and the `is_handled` direction. -/
structure RejEvent where
  promise : Nat
  reason : Nat
  isHandled : Bool
deriving DecidableEq

/-- One `js_promise_rejection_t` node (src/js.c:213-217). -/
structure RejNode where
  promise : Nat
  reason : Nat
deriving DecidableEq

/-- One pending engine job (microtask). Running it may enqueue further jobs
and may call the promise-rejection tracker; both behaviors are recorded in
the job itself, since the engine's job bodies are external to the
repository. -/
inductive Job where
  | mk (spawns : List Job) (events : List RejEvent)

/-- Total size of a job queue; the termination measure of the drain loop. -/
def jobsSize : List Job → Nat
  | [] => 0
  | Job.mk spawns _ :: rest => 1 + jobsSize spawns + jobsSize rest

/-- The environment state driven by the reentrancy/microtask machinery:
the depth counter, the engine's FIFO job queue, the pending-rejection list
(head = most recently prepended), the log of notifications delivered to the
host's unhandled-rejection callback (oldest first), the two host callback
registrations, the context's pending-exception flag, and the number of
deliveries to the uncaught-exception callback. -/
structure MicroEnv where
  depth : Nat
  jobs : List Job
  rejections : List RejNode
  delivered : List RejNode
  hasRejectionCallback : Bool
  hasUncaughtCallback : Bool
  hasException : Bool
  uncaught : Nat

/-- Removal of the first tracked node for a promise (the `prev`/`next` walk
of the `is_handled` branch of `js__on_promise_rejection`). -/
def removeRejection (p : Nat) : List RejNode → List RejNode
  | [] => []
  | n :: rest => if n.promise = p then rest else n :: removeRejection p rest

/-- Embedding of `js__on_promise_rejection` (src/js.c:487-520): ignored with no
unhandled-rejection callback registered; a handled report removes the first
node tracking the promise; an unhandled report prepends a new node. -/
def js__on_promise_rejection (e : MicroEnv) (promise reason : Nat)
    (isHandled : Bool) : MicroEnv :=
  if e.hasRejectionCallback = false then e
  else if isHandled then { e with rejections := removeRejection promise e.rejections }
  else { e with rejections := { promise := promise, reason := reason } :: e.rejections }

/-- Feeds a list of tracker calls to the environment, oldest first. -/
def applyEvents (e : MicroEnv) (events : List RejEvent) : MicroEnv :=
  events.foldl (fun acc ev => js__on_promise_rejection acc ev.promise ev.reason ev.isHandled) e

/-- The `JS_ExecutePendingJob` loop of `js__on_run_microtasks`
(src/js.c:532-542): pops jobs FIFO until the queue is empty; a job's
spawned jobs are enqueued at the back, and its tracker calls are applied.
(A job that ends in an exception goes through the uncaught path with a
value this model does not track.) -/
def runQueue (q : List Job) (e : MicroEnv) : MicroEnv :=
  match q with
  | [] => e
  | Job.mk spawns events :: rest => runQueue (rest ++ spawns) (applyEvents e events)
termination_by jobsSize q
decreasing_by
  have happ : ∀ a b : List Job, jobsSize (a ++ b) = jobsSize a + jobsSize b := by
    intro a
    induction a with
    | nil => intro b; simp [jobsSize]
    | cons j rest ih =>
      intro b
      cases j with
      | mk s ev => simp [jobsSize, ih b]; omega
  simp [jobsSize, happ]
  omega

/-- Embedding of `js__on_run_microtasks` (src/js.c:522-560): runs pending jobs until the
queue is empty, then detaches the pending-rejection list and walks it from
the head, delivering each node through `js__on_unhandled_rejection` (which
notifies the host only while the unhandled-rejection callback is
registered). -/
def js__on_run_microtasks (e : MicroEnv) : MicroEnv :=
  let e1 := runQueue e.jobs { e with jobs := [] }
  let pending := e1.rejections
  let e2 := { e1 with rejections := [] }
  if e2.hasRejectionCallback then { e2 with delivered := e2.delivered ++ pending }
  else e2

/-- The behavior of one engine evaluation (`JS_Eval`, `JS_Call`,
`JS_CallConstructor`, `JS_EvalFunction`) as the source observes it: the
jobs the executed script enqueued, the tracker calls it triggered, and
whether it completed with an exception. -/
structure ScriptEffect where
  spawns : List Job
  events : List RejEvent
  throws : Bool

/-- Applies a `ScriptEffect` to the environment: the spawned jobs join the
back of the engine queue, a throwing completion sets the pending exception,
and the tracker calls run. -/
def evalScript (e : MicroEnv) (eff : ScriptEffect) : MicroEnv :=
  applyEvents
    { e with jobs := e.jobs ++ eff.spawns,
             hasException := e.hasException || eff.throws }
    eff.events

/-- Embedding of `js__on_uncaught_exception` (src/js.c:430-459), called after
`JS_GetException` consumed the pending exception: with an
uncaught-exception callback the error is delivered to the host (the
exception stays consumed); without one it is re-thrown into the context
(the exception stays pending). -/
def js__on_uncaught_exception (e : MicroEnv) : MicroEnv :=
  if e.hasUncaughtCallback then
    { e with hasException := false, uncaught := e.uncaught + 1 }
  else e

/-- Embedding of `js_run_script` (src/js.c:1032-1079): pending-exception precondition;
`depth++`; `JS_Eval`; drain microtasks when `depth == 1`; `depth--`; on an
exceptional completion at depth 0, consume the exception into the uncaught
path and return the failure status, else return 0. The value plumbing
(wrapper allocation, `JS_ToCStringLen` of the source) is not observable by
the claims and is elided. -/
def js_run_script (e : MicroEnv) (eff : ScriptEffect) : Int × MicroEnv :=
  if e.hasException then (js__error true, e)
  else
    let e1 := evalScript { e with depth := e.depth + 1 } eff
    let e2 := if e1.depth = 1 then js__on_run_microtasks e1 else e1
    let e3 := { e2 with depth := e2.depth - 1 }
    if eff.throws then
      let e4 := if e3.depth = 0 then js__on_uncaught_exception e3 else e3
      (js__error e4.hasException, e4)
    else (0, e3)

/-- Embedding of `js_call_function` (src/js.c:5077-5119): same reentrancy skeleton as
`js_run_script` around `JS_Call`; the argument marshalling is elided. -/
def js_call_function (e : MicroEnv) (eff : ScriptEffect) : Int × MicroEnv :=
  if e.hasException then (js__error true, e)
  else
    let e1 := evalScript { e with depth := e.depth + 1 } eff
    let e2 := if e1.depth = 1 then js__on_run_microtasks e1 else e1
    let e3 := { e2 with depth := e2.depth - 1 }
    if eff.throws then
      let e4 := if e3.depth = 0 then js__on_uncaught_exception e3 else e3
      (js__error e4.hasException, e4)
    else (0, e3)

/-- Embedding of `js_new_instance` (src/js.c:5163-5203): pending-exception precondition;
`depth++`; `JS_CallConstructor`; `depth--`; exception handling as in
`js_call_function` — but no microtask drain anywhere in the function. -/
def js_new_instance (e : MicroEnv) (eff : ScriptEffect) : Int × MicroEnv :=
  if e.hasException then (js__error true, e)
  else
    let e1 := evalScript { e with depth := e.depth + 1 } eff
    let e3 := { e1 with depth := e1.depth - 1 }
    if eff.throws then
      let e4 := if e3.depth = 0 then js__on_uncaught_exception e3 else e3
      (js__error e4.hasException, e4)
    else (0, e3)

/-- Embedding of `js_instantiate_module` (src/js.c:1235-1286): pending-exception
precondition; a synthetic module (null source) returns immediately;
otherwise the resolver is pushed, the source is compiled
(`JS_EVAL_FLAG_COMPILE_ONLY`, which runs no script and schedules no jobs,
but can fail) inside the `depth++` / drain-at-depth-1 / `depth--` bracket,
and a compile failure at depth 0 goes through the uncaught path. Resolver
stack and bytecode bookkeeping are not observable by the claims and are
elided. -/
def js_instantiate_module (e : MicroEnv) (sourceIsNull : Bool)
    (compileThrows : Bool) : Int × MicroEnv :=
  if e.hasException then (js__error true, e)
  else if sourceIsNull then (0, e)
  else
    let e1 := { e with depth := e.depth + 1,
                       hasException := e.hasException || compileThrows }
    let e2 := if e1.depth = 1 then js__on_run_microtasks e1 else e1
    let e3 := { e2 with depth := e2.depth - 1 }
    if compileThrows then
      let e4 := if e3.depth = 0 then js__on_uncaught_exception e3 else e3
      (js__error e4.hasException, e4)
    else (0, e3)

/-- Embedding of `js__conclude_deferred` (src/js.c:2779-2797): calls the deferred's
resolve or reject function (an engine call whose effect is `eff`), then
drains microtasks when `depth == 0`; always returns 0. -/
def js__conclude_deferred (e : MicroEnv) (eff : ScriptEffect) : Int × MicroEnv :=
  let e1 := evalScript e eff
  let e2 := if e1.depth = 0 then js__on_run_microtasks e1 else e1
  (0, e2)

/-- Embedding of `js_run_module` (src/js.c:1288-1349), with no meta callback installed:
pending-exception precondition; `depth++`; `JS_EvalFunction` of the
compiled bytecode; drain at `depth == 1`; `depth--`. On an exceptional
completion the exception is consumed (`JS_GetException`) and a fresh
promise is rejected with it through `js__conclude_deferred` (whose engine
call has effect `rejectEff`), returning 0 with the rejected promise;
otherwise 0 with the evaluation result. -/
def js_run_module (e : MicroEnv) (eff rejectEff : ScriptEffect) : Int × MicroEnv :=
  if e.hasException then (js__error true, e)
  else
    let e1 := evalScript { e with depth := e.depth + 1 } eff
    let e2 := if e1.depth = 1 then js__on_run_microtasks e1 else e1
    let e3 := { e2 with depth := e2.depth - 1 }
    if eff.throws then
      let e4 := { e3 with hasException := false }
      js__conclude_deferred e4 rejectEff
    else (0, e3)

/-- The context state seen by a native callback bridge: the pending
exception, if any. -/
structure Ctx where
  pending : Option JSVal
deriving DecidableEq

/-- A host constructor callback as the bridge sees it: given the context
and the pre-constructed receiver it returns the wrapper it produced (if
any) and the context it left behind (it may have set a pending
exception). -/
def HostCallback : Type := Ctx → JSVal → Option JSVal × Ctx

/-- Embedding of `js__on_constructor_call` (src/js.c:1522-1565): builds the receiver
from `new_target`'s prototype (`JS_NewObjectProto`, a fresh object
allocation modelled by `receiverId`), invokes the host callback inside a
fresh handle scope, computes the would-be return `value` (the duplicated
host result, or undefined, replaced by the exception marker when the
context has a pending exception) — and then returns `receiver`,
leaving `value` unused and the pending exception untouched. -/
def js__on_constructor_call (ctx : Ctx) (receiverId : Nat)
    (cb : HostCallback) : JSVal × Ctx :=
  let receiver := JSVal.obj receiverId
  let (result, ctx1) := cb ctx receiver
  let value := match result with
    | none => JSVal.undefined
    | some r => r
  let _value := if ctx1.pending.isSome then JSVal.exception else value
  (receiver, ctx1)

/-- Embedding of `js__on_function_call` (src/js.c:2367-2403), for contrast with the
constructor bridge: with a pending exception the host's result is
discarded and the exception marker is returned to the engine; otherwise
the duplicated host result (or undefined) is returned. -/
def js__on_function_call (ctx : Ctx) (cb : HostCallback) : JSVal × Ctx :=
  let (result, ctx1) := cb ctx JSVal.undefined
  let value :=
    if ctx1.pending.isSome then JSVal.exception
    else match result with
      | none => JSVal.undefined
      | some r => r
  (value, ctx1)

/-- C7: for every `x` in the `int32_t` range, `js_create_int32 x` followed
by `js_get_value_int32` yields exactly `x`. -/
theorem create_int32_get_value_int32_roundtrip (scope : List JSVal) (x : Int)
    (h1 : -(2 ^ 31) ≤ x) (h2 : x < 2 ^ 31) :
    js_get_value_int32 (js_create_int32 scope x).2 = x := rfl

/-- Witness for `create_int32_get_value_int32_roundtrip` at `x = 7`. -/
theorem create_int32_get_value_int32_roundtrip_witness :
    -(2 ^ 31) ≤ (7 : Int) ∧ (7 : Int) < 2 ^ 31 ∧
      js_get_value_int32 (js_create_int32 [] 7).2 = 7 :=
  ⟨by decide, by decide,
    create_int32_get_value_int32_roundtrip [] 7 (by decide) (by decide)⟩

/-- C6: at the failing input — the two-byte ASCII string `"hi"` extracted
into a caller buffer of capacity 1 — the UTF-16 and Latin-1 extractors
store the converter's full 2-unit output into the 1-unit buffer (an
out-of-bounds write), not the `min(required, capacity) = 1` units the spec
promises, although they report 1; the UTF-8 extractor at the same input
does write exactly 1 unit. The conversion pair is instantiated with the
identity, which is the conversion's behavior on ASCII input. -/
theorem string_extractors_overflow_small_buffer :
    (js_get_value_string_utf16le List.length (fun l => l) [104, 105] true 1).unitsWritten = 2 ∧
    (js_get_value_string_utf16le List.length (fun l => l) [104, 105] true 1).reportedWritten = some 1 ∧
    ¬((js_get_value_string_utf16le List.length (fun l => l) [104, 105] true 1).unitsWritten ≤ 1) ∧
    (js_get_value_string_latin1 List.length (fun l => l) [104, 105] true 1).unitsWritten = 2 ∧
    (js_get_value_string_utf8 [104, 105] true 1).unitsWritten = 1 ∧
    min 2 1 = 1 := by
  decide

/-- C5: for `len ≤ UINT32_MAX` (and a successful allocation),
`js_create_arraybuffer` succeeds with `len` zero bytes and
`js_create_unsafe_arraybuffer` succeeds with a buffer of length `len`; for
`len > UINT32_MAX` both throw a RangeError and return a negative status,
whatever the allocator would have done. -/
theorem create_arraybuffer_length_spec (len : Nat) (malloc : Nat → List Nat)
    (hm : ∀ n, (malloc n).length = n) :
    (len ≤ UINT32_MAX →
      js_create_arraybuffer false len true =
        { status := 0, thrownRangeError := false,
          bytes := some (List.replicate len 0) } ∧
      (js_create_unsafe_arraybuffer malloc false len true).status = 0 ∧
      ∃ b, (js_create_unsafe_arraybuffer malloc false len true).bytes = some b ∧
        b.length = len) ∧
    (len > UINT32_MAX → ∀ allocOk : Bool,
      (js_create_arraybuffer false len allocOk).status < 0 ∧
      (js_create_arraybuffer false len allocOk).thrownRangeError = true ∧
      (js_create_unsafe_arraybuffer malloc false len allocOk).status < 0 ∧
      (js_create_unsafe_arraybuffer malloc false len allocOk).thrownRangeError = true) := by
  constructor
  · intro hle
    have hgt : ¬ len > UINT32_MAX := not_lt.mpr hle
    refine ⟨?_, ?_, ⟨malloc len, ?_, hm len⟩⟩ <;>
      simp [js_create_arraybuffer, js_create_unsafe_arraybuffer, hgt]
  · intro hgt allocOk
    refine ⟨?_, ?_, ?_, ?_⟩ <;>
      simp [js_create_arraybuffer, js_create_unsafe_arraybuffer, hgt,
        js__error, js_pending_exception]

/-- Witness for `create_arraybuffer_length_spec` at `len = 3` and
`len = 2 ^ 32`. -/
theorem create_arraybuffer_length_spec_witness :
    ((3 : Nat) ≤ UINT32_MAX ∧
      js_create_arraybuffer false 3 true =
        { status := 0, thrownRangeError := false, bytes := some [0, 0, 0] }) ∧
    (2 ^ 32 > UINT32_MAX ∧ (js_create_arraybuffer false (2 ^ 32) true).status < 0 ∧
      (js_create_arraybuffer false (2 ^ 32) true).thrownRangeError = true) := by
  have hsmall :=
    (create_arraybuffer_length_spec 3 (fun n => List.replicate n 0)
      (fun n => List.length_replicate n 0)).1 (by decide)
  have hbig :=
    (create_arraybuffer_length_spec (2 ^ 32) (fun n => List.replicate n 0)
      (fun n => List.length_replicate n 0)).2 (by decide) true
  exact ⟨⟨by decide, hsmall.1⟩, by decide, hbig.1, hbig.2.1⟩

/-- C8: unref on a reference whose count is already 0 is a complete no-op:
status 0, reported count 0, and the state — count, finalized flag and weak
observer alike — unchanged. -/
theorem reference_unref_at_zero_is_noop (s : RefState) (h : s.count = 0) :
    js_reference_unref s = (0, 0, s) := by
  unfold js_reference_unref
  simp [h]

/-- Witness for `reference_unref_at_zero_is_noop` on a weakly-held
object reference. -/
theorem reference_unref_at_zero_is_noop_witness :
    (js_create_reference true 0).count = 0 ∧
    (js_create_reference true 0).weakInstalled = true ∧
    js_reference_unref (js_create_reference true 0) =
      (0, 0, js_create_reference true 0) :=
  ⟨by decide, by decide,
    reference_unref_at_zero_is_noop (js_create_reference true 0) (by decide)⟩

/-- C9: on an environment whose `destroying` flag is set (and with no
pending exception, the function's unrelated precondition),
`js_remove_teardown_callback` returns 0 and leaves the environment — in
particular the teardown queue — untouched, for any callback and data. -/
theorem remove_teardown_callback_while_destroying (e : TDEnv) (cb data : Nat)
    (hx : e.hasException = false) (hd : e.destroying = true) :
    js_remove_teardown_callback e cb data = (0, e) := by
  unfold js_remove_teardown_callback
  simp [hx, hd]

/-- Witness for `remove_teardown_callback_while_destroying` on a destroying
environment whose queue holds a task matching the removed callback and
data. -/
theorem remove_teardown_callback_while_destroying_witness :
    ({ hasException := false, destroying := true,
       tasks := [TeardownTask.immediate 1 2], refs := 0,
       teardownWoken := false } : TDEnv).tasks = [TeardownTask.immediate 1 2] ∧
    js_remove_teardown_callback
      { hasException := false, destroying := true,
        tasks := [TeardownTask.immediate 1 2], refs := 0,
        teardownWoken := false } 1 2 =
      (0, { hasException := false, destroying := true,
            tasks := [TeardownTask.immediate 1 2], refs := 0,
            teardownWoken := false }) :=
  ⟨rfl,
    remove_teardown_callback_while_destroying
      { hasException := false, destroying := true,
        tasks := [TeardownTask.immediate 1 2], refs := 0,
        teardownWoken := false } 1 2 rfl rfl⟩

theorem findRemoveDeferred_eq_none_iff (h : Nat) (l : List TeardownTask) :
    findRemoveDeferred h l = none ↔ countHandle h l = 0 := by
  induction l with
  | nil => simp [findRemoveDeferred, countHandle]
  | cons t rest ih =>
    cases t with
    | immediate cb data =>
      simpa [findRemoveDeferred, countHandle] using ih
    | deferred h1 cb data =>
      by_cases hh : h1 = h
      · simp [findRemoveDeferred, countHandle, hh]
      · simpa [findRemoveDeferred, countHandle, hh] using ih

theorem findRemoveDeferred_cons_immediate (h cb data : Nat)
    (rest : List TeardownTask) :
    findRemoveDeferred h (TeardownTask.immediate cb data :: rest) =
      (findRemoveDeferred h rest).map
        (fun l => TeardownTask.immediate cb data :: l) := by
  simp [findRemoveDeferred]

theorem findRemoveDeferred_cons_hit (h cb data : Nat)
    (rest : List TeardownTask) :
    findRemoveDeferred h (TeardownTask.deferred h cb data :: rest) =
      some rest := by
  simp [findRemoveDeferred]

theorem findRemoveDeferred_cons_miss (h h1 cb data : Nat)
    (rest : List TeardownTask) (hne : h1 ≠ h) :
    findRemoveDeferred h (TeardownTask.deferred h1 cb data :: rest) =
      (findRemoveDeferred h rest).map
        (fun l => TeardownTask.deferred h1 cb data :: l) := by
  simp [findRemoveDeferred, hne]

theorem countHandle_findRemoveDeferred (h : Nat) (l l1 : List TeardownTask)
    (hfound : findRemoveDeferred h l = some l1) :
    countHandle h l1 + 1 = countHandle h l := by
  induction l generalizing l1 with
  | nil => simp [findRemoveDeferred] at hfound
  | cons t rest ih =>
    cases t with
    | immediate cb data =>
      rw [findRemoveDeferred_cons_immediate, Option.map_eq_some'] at hfound
      obtain ⟨l2, hl2, rfl⟩ := hfound
      simpa [countHandle] using ih l2 hl2
    | deferred h1 cb data =>
      by_cases hh : h1 = h
      · subst hh
        rw [findRemoveDeferred_cons_hit, Option.some.injEq] at hfound
        subst hfound
        simp [countHandle]
        omega
      · rw [findRemoveDeferred_cons_miss h h1 cb data rest hh,
          Option.map_eq_some'] at hfound
        obtain ⟨l2, hl2, rfl⟩ := hfound
        have := ih l2 hl2
        simp [countHandle, hh]
        omega

/-- C10: `js_finish_deferred_teardown_callback` returns -1 and leaves the
environment untouched when no deferred task of the queue carries the handle
(in particular on a second call for an already-finished handle); when a
task carries it, the call returns 0, removes that task (the queue holds one
fewer task with that handle) and decrements the outstanding-reference
count. -/
theorem finish_deferred_teardown_spec (e : TDEnv) (h : Nat) :
    (countHandle h e.tasks = 0 →
      js_finish_deferred_teardown_callback e h = (-1, e)) ∧
    (0 < countHandle h e.tasks → 1 ≤ e.refs → e.refs < U32 →
      (js_finish_deferred_teardown_callback e h).1 = 0 ∧
      (js_finish_deferred_teardown_callback e h).2.refs = e.refs - 1 ∧
      countHandle h (js_finish_deferred_teardown_callback e h).2.tasks + 1 =
        countHandle h e.tasks) ∧
    (countHandle h e.tasks = 1 → 1 ≤ e.refs → e.refs < U32 →
      js_finish_deferred_teardown_callback
          (js_finish_deferred_teardown_callback e h).2 h =
        (-1, (js_finish_deferred_teardown_callback e h).2)) := by
  have hU : U32 = 4294967296 := by norm_num [U32]
  have hdec : ∀ r : Nat, 1 ≤ r → r < U32 → (r + (U32 - 1)) % U32 = r - 1 := by
    intro r h1 h2
    have hr : r + (U32 - 1) = (r - 1) + 1 * U32 := by omega
    rw [hr, Nat.add_mul_mod_self_right]
    exact Nat.mod_eq_of_lt (by omega)
  refine ⟨?_, ?_, ?_⟩
  · intro h0
    have hnone : findRemoveDeferred h e.tasks = none :=
      (findRemoveDeferred_eq_none_iff h e.tasks).mpr h0
    unfold js_finish_deferred_teardown_callback
    rw [hnone]
  · intro hpos hr1 hr2
    obtain ⟨l1, hl1⟩ : ∃ l1, findRemoveDeferred h e.tasks = some l1 := by
      rcases hfind : findRemoveDeferred h e.tasks with _ | l1
      · exact absurd ((findRemoveDeferred_eq_none_iff h e.tasks).mp hfind) (by omega)
      · exact ⟨l1, rfl⟩
    unfold js_finish_deferred_teardown_callback
    rw [hl1]
    refine ⟨rfl, hdec e.refs hr1 hr2, ?_⟩
    simpa using countHandle_findRemoveDeferred h e.tasks l1 hl1
  · intro hone hr1 hr2
    obtain ⟨l1, hl1⟩ : ∃ l1, findRemoveDeferred h e.tasks = some l1 := by
      rcases hfind : findRemoveDeferred h e.tasks with _ | l1
      · exact absurd ((findRemoveDeferred_eq_none_iff h e.tasks).mp hfind) (by omega)
      · exact ⟨l1, rfl⟩
    have hcount : countHandle h l1 = 0 := by
      have := countHandle_findRemoveDeferred h e.tasks l1 hl1
      omega
    have hfirst :
        js_finish_deferred_teardown_callback e h =
          (0, { e with tasks := l1, refs := (e.refs + (U32 - 1)) % U32,
                       teardownWoken :=
                         e.teardownWoken ||
                           (decide ((e.refs + (U32 - 1)) % U32 = 0) && e.destroying) }) := by
      unfold js_finish_deferred_teardown_callback
      rw [hl1]
    rw [hfirst]
    have hnone : findRemoveDeferred h l1 = none :=
      (findRemoveDeferred_eq_none_iff h l1).mpr hcount
    unfold js_finish_deferred_teardown_callback
    simp [hnone]

/-- Witness for `finish_deferred_teardown_spec` on a queue holding one
deferred task with handle 5: finishing handle 9 fails untouched, finishing
handle 5 succeeds, removes the task and decrements the count, and a second
finish of handle 5 fails. -/
theorem finish_deferred_teardown_spec_witness :
    (js_finish_deferred_teardown_callback
        { hasException := false, destroying := false,
          tasks := [TeardownTask.deferred 5 1 2], refs := 1,
          teardownWoken := false } 9 =
      (-1, { hasException := false, destroying := false,
             tasks := [TeardownTask.deferred 5 1 2], refs := 1,
             teardownWoken := false })) ∧
    ((js_finish_deferred_teardown_callback
        { hasException := false, destroying := false,
          tasks := [TeardownTask.deferred 5 1 2], refs := 1,
          teardownWoken := false } 5).1 = 0 ∧
      (js_finish_deferred_teardown_callback
        { hasException := false, destroying := false,
          tasks := [TeardownTask.deferred 5 1 2], refs := 1,
          teardownWoken := false } 5).2.refs = 0 ∧
      countHandle 5 (js_finish_deferred_teardown_callback
        { hasException := false, destroying := false,
          tasks := [TeardownTask.deferred 5 1 2], refs := 1,
          teardownWoken := false } 5).2.tasks + 1 = 1) ∧
    js_finish_deferred_teardown_callback
        (js_finish_deferred_teardown_callback
          { hasException := false, destroying := false,
            tasks := [TeardownTask.deferred 5 1 2], refs := 1,
            teardownWoken := false } 5).2 5 =
      (-1, (js_finish_deferred_teardown_callback
          { hasException := false, destroying := false,
            tasks := [TeardownTask.deferred 5 1 2], refs := 1,
            teardownWoken := false } 5).2) := by
  have h :=
    finish_deferred_teardown_spec
      { hasException := false, destroying := false,
        tasks := [TeardownTask.deferred 5 1 2], refs := 1,
        teardownWoken := false } 5
  have h9 :=
    (finish_deferred_teardown_spec
      { hasException := false, destroying := false,
        tasks := [TeardownTask.deferred 5 1 2], refs := 1,
        teardownWoken := false } 9).1 (by decide)
  have hfound := h.2.1 (by decide) (by decide) (by decide)
  exact ⟨h9, ⟨hfound.1, hfound.2.1, hfound.2.2.trans (by decide)⟩,
    h.2.2 (by decide) (by decide) (by decide)⟩

/-- C3 (amended): the constructor bridge always hands the engine the
pre-constructed receiver — also when the host callback leaves a pending
exception, in which case the exception is not signalled as the call's
thrown result (the computed exception marker is discarded) but stays
pending on the context exactly as the host left it. -/
theorem constructor_call_returns_receiver (ctx : Ctx) (receiverId : Nat)
    (cb : HostCallback) :
    (js__on_constructor_call ctx receiverId cb).1 = JSVal.obj receiverId ∧
    (js__on_constructor_call ctx receiverId cb).2 =
      (cb ctx (JSVal.obj receiverId)).2 ∧
    (js__on_constructor_call ctx receiverId cb).1 ≠ JSVal.exception := by
  rcases hcb : cb ctx (JSVal.obj receiverId) with ⟨result, ctx1⟩
  simp [js__on_constructor_call, hcb]

/-- C3 counterexample: a host constructor callback that leaves a pending
exception; the constructor bridge still completes normally with the
receiver — the engine-visible result is not the thrown-exception signal
that the function bridge produces for the same host behavior. -/
theorem constructor_call_does_not_signal_throw :
    (js__on_constructor_call { pending := none } 7
        (fun _ _ => (none, { pending := some (JSVal.obj 99) }))).2.pending =
      some (JSVal.obj 99) ∧
    (js__on_constructor_call { pending := none } 7
        (fun _ _ => (none, { pending := some (JSVal.obj 99) }))).1 =
      JSVal.obj 7 ∧
    (js__on_constructor_call { pending := none } 7
        (fun _ _ => (none, { pending := some (JSVal.obj 99) }))).1 ≠
      JSVal.exception ∧
    (js__on_function_call { pending := none }
        (fun _ _ => (none, { pending := some (JSVal.obj 99) }))).1 =
      JSVal.exception := by
  refine ⟨rfl, rfl, ?_, rfl⟩
  decide

theorem refApply_cons (s : RefState) (op : RefOp) (ops : List RefOp) :
    refApply s (op :: ops) = refApply (refStep s op) ops := rfl

theorem weakInv_refStep (s : RefState) (op : RefOp)
    (hc : s.count < U32) (hinv : weakInv s)
    (hnw : op = RefOp.ref → s.count ≠ U32 - 1) :
    weakInv (refStep s op) ∧ (refStep s op).count < U32 := by
  have hU : U32 = 4294967296 := by norm_num [U32]
  obtain ⟨c, fin, obj, w⟩ := s
  unfold weakInv at hinv
  simp only at hinv hc hnw
  cases op with
  | ref =>
    have hne : c ≠ U32 - 1 := by simpa using hnw rfl
    have hmod : (c + 1) % U32 = c + 1 := Nat.mod_eq_of_lt (by omega)
    constructor
    · unfold weakInv refStep js_reference_ref js__clear_weak_reference
      simp only [hmod]
      by_cases h1 : c + 1 = 1 <;> cases obj <;> cases fin <;> simp_all
    · unfold refStep js_reference_ref js__clear_weak_reference
      simp only [hmod]
      by_cases h1 : c + 1 = 1 <;> cases obj <;> cases fin <;> simp_all
  | unref =>
    constructor
    · unfold weakInv refStep js_reference_unref js__set_weak_reference
      by_cases h0 : c > 0
      all_goals by_cases h1 : c - 1 = 0
      all_goals cases obj <;> cases fin <;> simp_all <;> omega
    · unfold refStep js_reference_unref js__set_weak_reference
      by_cases h0 : c > 0
      all_goals by_cases h1 : c - 1 = 0
      all_goals cases obj <;> cases fin <;> simp_all <;> omega
  | finalize =>
    constructor
    · unfold weakInv refStep refFinalize
      cases obj <;> cases fin <;> by_cases h0 : c = 0 <;> simp_all
    · unfold refStep refFinalize
      cases obj <;> cases fin <;> by_cases h0 : c = 0 <;> simp_all

theorem weakInv_refApply (ops : List RefOp) (s : RefState)
    (hc : s.count < U32) (hinv : weakInv s)
    (hnw : refNoWrap s ops = true) :
    weakInv (refApply s ops) := by
  induction ops generalizing s with
  | nil => simpa [refApply] using hinv
  | cons op rest ih =>
    simp only [refNoWrap, Bool.and_eq_true] at hnw
    obtain ⟨h1, h2⟩ := hnw
    have hnw1 : op = RefOp.ref → s.count ≠ U32 - 1 := by
      intro hop
      subst hop
      simpa using h1
    have hstep := weakInv_refStep s op hc hinv hnw1
    rw [refApply_cons]
    exact ih (refStep s op) hstep.2 hstep.1 h2

/-- C4 (amended): starting from `js_create_reference`, after any sequence
of ref / unref / target-collection steps in which no `ref` call runs on a
saturated `uint32_t` count (which would wrap the count back to 0 without
re-installing the observer), the weak observer is installed iff the count
is 0, the reference is not finalized, and the target is an object or
function — in particular the 0-to-1 transition removes the observer and
the 1-to-0 transition re-installs it. -/
theorem reference_weak_observer_invariant (valueIsObjLike : Bool) (count : Nat)
    (ops : List RefOp) (hcount : count < U32)
    (hnw : refNoWrap (js_create_reference valueIsObjLike count) ops = true) :
    weakInv (refApply (js_create_reference valueIsObjLike count) ops) := by
  apply weakInv_refApply ops _ ?_ ?_ hnw
  · cases valueIsObjLike <;> by_cases h0 : count = 0 <;>
      simp [js_create_reference, js__set_weak_reference, h0] <;> omega
  · cases valueIsObjLike <;> by_cases h0 : count = 0 <;>
      simp [weakInv, js_create_reference, js__set_weak_reference, h0]

/-- Witness for `reference_weak_observer_invariant`: a weakly-created
object reference taken through the 0-to-1 and 1-to-0 transitions. -/
theorem reference_weak_observer_invariant_witness :
    (0 : Nat) < U32 ∧
    refNoWrap (js_create_reference true 0) [RefOp.ref, RefOp.unref] = true ∧
    weakInv (refApply (js_create_reference true 0) [RefOp.ref, RefOp.unref]) :=
  ⟨by decide, by decide,
    reference_weak_observer_invariant true 0 [RefOp.ref, RefOp.unref]
      (by decide) (by decide)⟩

theorem refApply_replicate_ref (n : Nat) (s : RefState)
    (hc : s.count < U32) (hw : s.weakInstalled = false) :
    (refApply s (List.replicate n RefOp.ref)).count = (s.count + n) % U32 ∧
    (refApply s (List.replicate n RefOp.ref)).weakInstalled = false ∧
    (refApply s (List.replicate n RefOp.ref)).finalized = s.finalized ∧
    (refApply s (List.replicate n RefOp.ref)).valueIsObjLike = s.valueIsObjLike := by
  have hU : U32 = 4294967296 := by norm_num [U32]
  induction n generalizing s with
  | zero =>
    simp [refApply, Nat.mod_eq_of_lt hc, hw]
  | succ n ih =>
    have hrep : List.replicate (n + 1) RefOp.ref =
        RefOp.ref :: List.replicate n RefOp.ref := List.replicate_succ RefOp.ref n
    have hstepcount : (refStep s RefOp.ref).count = (s.count + 1) % U32 := by
      unfold refStep js_reference_ref js__clear_weak_reference
      by_cases h1 : (s.count + 1) % U32 = 1 <;>
        cases hobj : s.valueIsObjLike <;> cases hfin : s.finalized <;> simp_all
    have hstepw : (refStep s RefOp.ref).weakInstalled = false := by
      unfold refStep js_reference_ref js__clear_weak_reference
      by_cases h1 : (s.count + 1) % U32 = 1 <;>
        cases hobj : s.valueIsObjLike <;> cases hfin : s.finalized <;> simp_all
    have hstepfin : (refStep s RefOp.ref).finalized = s.finalized := by
      unfold refStep js_reference_ref js__clear_weak_reference
      by_cases h1 : (s.count + 1) % U32 = 1 <;>
        cases hobj : s.valueIsObjLike <;> cases hfin : s.finalized <;> simp_all
    have hstepobj : (refStep s RefOp.ref).valueIsObjLike = s.valueIsObjLike := by
      unfold refStep js_reference_ref js__clear_weak_reference
      by_cases h1 : (s.count + 1) % U32 = 1 <;>
        cases hobj : s.valueIsObjLike <;> cases hfin : s.finalized <;> simp_all
    have hcs : (refStep s RefOp.ref).count < U32 := by
      rw [hstepcount]
      exact Nat.mod_lt _ (by omega)
    have := ih (refStep s RefOp.ref) hcs hstepw
    rw [hrep, refApply_cons]
    refine ⟨?_, this.2.1, this.2.2.1.trans hstepfin, this.2.2.2.trans hstepobj⟩
    rw [this.1, hstepcount, Nat.mod_add_mod]
    congr 1
    omega

/-- C4 counterexample: on a weakly-created object reference, a sequence of
`2 ^ 32` ref calls wraps the `uint32_t` count back to 0 while the weak
observer stays uninstalled (the observer was removed at the first call and
`ref` never re-installs it), so the claimed invariant — quantified over
every operation sequence — fails at that state. -/
theorem reference_weak_observer_invariant_cex :
    ¬ weakInv (refApply (js_create_reference true 0)
        (List.replicate U32 RefOp.ref)) := by
  have hU : U32 = 4294967296 := by norm_num [U32]
  have hsucc : (4294967296 : Nat) = 4294967295 + 1 := by norm_num
  have hsplit : List.replicate U32 RefOp.ref =
      RefOp.ref :: List.replicate 4294967295 RefOp.ref := by
    rw [hU, hsucc, List.replicate_succ]
  have hstep : refStep (js_create_reference true 0) RefOp.ref =
      { count := 1, finalized := false, valueIsObjLike := true,
        weakInstalled := false } := by
    decide
  have hfields :=
    refApply_replicate_ref 4294967295
      { count := 1, finalized := false, valueIsObjLike := true,
        weakInstalled := false }
      (by show (1 : Nat) < U32; rw [hU]; omega) rfl
  rw [hsplit, refApply_cons, hstep]
  obtain ⟨hcnt, hw, hfin, hobj⟩ := hfields
  have hzero : ((1 : Nat) + 4294967295) % U32 = 0 := by
    rw [hU]
  unfold weakInv
  rw [hw, hcnt, hzero, hfin, hobj]
  simp

theorem js__on_promise_rejection_preserves (e : MicroEnv) (p r : Nat) (b : Bool) :
    (js__on_promise_rejection e p r b).jobs = e.jobs ∧
    (js__on_promise_rejection e p r b).depth = e.depth ∧
    (js__on_promise_rejection e p r b).delivered = e.delivered ∧
    (js__on_promise_rejection e p r b).hasRejectionCallback = e.hasRejectionCallback ∧
    (js__on_promise_rejection e p r b).hasUncaughtCallback = e.hasUncaughtCallback ∧
    (js__on_promise_rejection e p r b).hasException = e.hasException ∧
    (js__on_promise_rejection e p r b).uncaught = e.uncaught := by
  unfold js__on_promise_rejection
  split_ifs <;> simp

theorem applyEvents_cons (e : MicroEnv) (ev : RejEvent) (rest : List RejEvent) :
    applyEvents e (ev :: rest) =
      applyEvents (js__on_promise_rejection e ev.promise ev.reason ev.isHandled) rest := rfl

theorem applyEvents_preserves (events : List RejEvent) (e : MicroEnv) :
    (applyEvents e events).jobs = e.jobs ∧
    (applyEvents e events).depth = e.depth ∧
    (applyEvents e events).delivered = e.delivered ∧
    (applyEvents e events).hasRejectionCallback = e.hasRejectionCallback ∧
    (applyEvents e events).hasUncaughtCallback = e.hasUncaughtCallback ∧
    (applyEvents e events).hasException = e.hasException ∧
    (applyEvents e events).uncaught = e.uncaught := by
  induction events generalizing e with
  | nil => simp [applyEvents]
  | cons ev rest ih =>
    rw [applyEvents_cons]
    have h1 := js__on_promise_rejection_preserves e ev.promise ev.reason ev.isHandled
    have h2 := ih (js__on_promise_rejection e ev.promise ev.reason ev.isHandled)
    exact ⟨h2.1.trans h1.1, h2.2.1.trans h1.2.1, h2.2.2.1.trans h1.2.2.1,
      h2.2.2.2.1.trans h1.2.2.2.1, h2.2.2.2.2.1.trans h1.2.2.2.2.1,
      h2.2.2.2.2.2.1.trans h1.2.2.2.2.2.1, h2.2.2.2.2.2.2.trans h1.2.2.2.2.2.2⟩

theorem runQueue_nil (e : MicroEnv) : runQueue [] e = e := by
  unfold runQueue
  rfl

theorem runQueue_cons (spawns : List Job) (events : List RejEvent)
    (rest : List Job) (e : MicroEnv) :
    runQueue (Job.mk spawns events :: rest) e =
      runQueue (rest ++ spawns) (applyEvents e events) := by
  rw [runQueue]

theorem runQueue_preserves (q : List Job) (e : MicroEnv) :
    (runQueue q e).jobs = e.jobs ∧
    (runQueue q e).depth = e.depth ∧
    (runQueue q e).delivered = e.delivered ∧
    (runQueue q e).hasRejectionCallback = e.hasRejectionCallback ∧
    (runQueue q e).hasUncaughtCallback = e.hasUncaughtCallback ∧
    (runQueue q e).hasException = e.hasException ∧
    (runQueue q e).uncaught = e.uncaught := by
  induction q, e using runQueue.induct with
  | case1 e => simp [runQueue_nil]
  | case2 e spawns events rest ih =>
    rw [runQueue_cons]
    have h1 := applyEvents_preserves events e
    exact ⟨ih.1.trans h1.1, ih.2.1.trans h1.2.1, ih.2.2.1.trans h1.2.2.1,
      ih.2.2.2.1.trans h1.2.2.2.1, ih.2.2.2.2.1.trans h1.2.2.2.2.1,
      ih.2.2.2.2.2.1.trans h1.2.2.2.2.2.1, ih.2.2.2.2.2.2.trans h1.2.2.2.2.2.2⟩

theorem runQueue_single (events : List RejEvent) (e : MicroEnv) :
    runQueue [Job.mk [] events] e = applyEvents e events := by
  rw [runQueue_cons]
  exact runQueue_nil _

theorem js__on_run_microtasks_spec (e : MicroEnv) :
    (js__on_run_microtasks e).jobs = [] ∧
    (js__on_run_microtasks e).depth = e.depth ∧
    (js__on_run_microtasks e).hasException = e.hasException ∧
    (js__on_run_microtasks e).hasRejectionCallback = e.hasRejectionCallback ∧
    (js__on_run_microtasks e).hasUncaughtCallback = e.hasUncaughtCallback := by
  obtain ⟨h1, h2, h3, h4, h5, h6, h7⟩ :=
    runQueue_preserves e.jobs { e with jobs := [] }
  unfold js__on_run_microtasks
  by_cases hcb : (runQueue e.jobs { e with jobs := [] }).hasRejectionCallback <;>
    simp [hcb, h1, h2, h3, h4, h5, h6, h7] <;> simp_all

theorem js__on_uncaught_exception_preserves (e : MicroEnv) :
    (js__on_uncaught_exception e).jobs = e.jobs ∧
    (js__on_uncaught_exception e).depth = e.depth := by
  unfold js__on_uncaught_exception
  split_ifs <;> simp

theorem evalScript_fields (e : MicroEnv) (eff : ScriptEffect) :
    (evalScript e eff).jobs = e.jobs ++ eff.spawns ∧
    (evalScript e eff).depth = e.depth ∧
    (evalScript e eff).hasException = (e.hasException || eff.throws) ∧
    (evalScript e eff).hasRejectionCallback = e.hasRejectionCallback ∧
    (evalScript e eff).hasUncaughtCallback = e.hasUncaughtCallback := by
  unfold evalScript
  have h := applyEvents_preserves eff.events
    { e with jobs := e.jobs ++ eff.spawns,
             hasException := e.hasException || eff.throws }
  exact ⟨h.1, h.2.1, h.2.2.2.2.2.1, h.2.2.2.1, h.2.2.2.2.1⟩

/-- C1 (amended): a script-executing API call entered at depth 0 (with no
pending exception) returns with the engine's microtask queue drained to
empty for `js_run_script`, `js_call_function`, `js_instantiate_module`
(compiling path) and `js_run_module` — whatever the executed script
scheduled or threw. `js_new_instance` is the exception: it performs no
drain (see the counterexample). -/
theorem script_apis_drain_microtasks_at_depth_zero (e : MicroEnv)
    (eff rejectEff : ScriptEffect) (compileThrows : Bool)
    (hd : e.depth = 0) (hx : e.hasException = false) :
    (js_run_script e eff).2.jobs = [] ∧
    (js_call_function e eff).2.jobs = [] ∧
    (js_instantiate_module e false compileThrows).2.jobs = [] ∧
    (js_run_module e eff rejectEff).2.jobs = [] := by
  refine ⟨?_, ?_, ?_, ?_⟩
  · by_cases ht : eff.throws <;>
      simp [js_run_script, hx, hd, ht, evalScript_fields,
        js__on_run_microtasks_spec, js__on_uncaught_exception_preserves]
  · by_cases ht : eff.throws <;>
      simp [js_call_function, hx, hd, ht, evalScript_fields,
        js__on_run_microtasks_spec, js__on_uncaught_exception_preserves]
  · cases compileThrows <;>
      simp [js_instantiate_module, hx, hd, evalScript_fields,
        js__on_run_microtasks_spec, js__on_uncaught_exception_preserves]
  · by_cases ht : eff.throws <;>
      simp [js_run_module, js__conclude_deferred, hx, hd, ht, evalScript_fields,
        js__on_run_microtasks_spec, js__on_uncaught_exception_preserves]

/-- Witness for `script_apis_drain_microtasks_at_depth_zero` on an idle
environment and a script that schedules one microtask. -/
theorem script_apis_drain_microtasks_at_depth_zero_witness :
    ({ depth := 0, jobs := [], rejections := [], delivered := [],
       hasRejectionCallback := false, hasUncaughtCallback := false,
       hasException := false, uncaught := 0 } : MicroEnv).depth = 0 ∧
    ({ depth := 0, jobs := [], rejections := [], delivered := [],
       hasRejectionCallback := false, hasUncaughtCallback := false,
       hasException := false, uncaught := 0 } : MicroEnv).hasException = false ∧
    ((js_run_script
        { depth := 0, jobs := [], rejections := [], delivered := [],
          hasRejectionCallback := false, hasUncaughtCallback := false,
          hasException := false, uncaught := 0 }
        { spawns := [Job.mk [] []], events := [], throws := false }).2.jobs = [] ∧
      (js_call_function
        { depth := 0, jobs := [], rejections := [], delivered := [],
          hasRejectionCallback := false, hasUncaughtCallback := false,
          hasException := false, uncaught := 0 }
        { spawns := [Job.mk [] []], events := [], throws := false }).2.jobs = [] ∧
      (js_instantiate_module
        { depth := 0, jobs := [], rejections := [], delivered := [],
          hasRejectionCallback := false, hasUncaughtCallback := false,
          hasException := false, uncaught := 0 } false false).2.jobs = [] ∧
      (js_run_module
        { depth := 0, jobs := [], rejections := [], delivered := [],
          hasRejectionCallback := false, hasUncaughtCallback := false,
          hasException := false, uncaught := 0 }
        { spawns := [Job.mk [] []], events := [], throws := false }
        { spawns := [], events := [], throws := false }).2.jobs = []) :=
  ⟨rfl, rfl,
    script_apis_drain_microtasks_at_depth_zero
      { depth := 0, jobs := [], rejections := [], delivered := [],
        hasRejectionCallback := false, hasUncaughtCallback := false,
        hasException := false, uncaught := 0 }
      { spawns := [Job.mk [] []], events := [], throws := false }
      { spawns := [], events := [], throws := false } false rfl rfl⟩

/-- C1 counterexample: a `js_new_instance` call at depth 0 whose
constructor schedules one microtask returns success with that microtask
still queued — the queue is not drained before the call returns. -/
theorem new_instance_returns_with_pending_microtask :
    ({ depth := 0, jobs := [], rejections := [], delivered := [],
       hasRejectionCallback := false, hasUncaughtCallback := false,
       hasException := false, uncaught := 0 } : MicroEnv).depth = 0 ∧
    (js_new_instance
      { depth := 0, jobs := [], rejections := [], delivered := [],
        hasRejectionCallback := false, hasUncaughtCallback := false,
        hasException := false, uncaught := 0 }
      { spawns := [Job.mk [] []], events := [], throws := false }).1 = 0 ∧
    ((js_new_instance
      { depth := 0, jobs := [], rejections := [], delivered := [],
        hasRejectionCallback := false, hasUncaughtCallback := false,
        hasException := false, uncaught := 0 }
      { spawns := [Job.mk [] []], events := [], throws := false }).2.jobs).length
      = 1 := by
  refine ⟨rfl, ?_, ?_⟩ <;>
    simp [js_new_instance, evalScript, applyEvents, js__error]

theorem applyEvents_unhandled (reports : List (Nat × Nat)) (e : MicroEnv)
    (hcb : e.hasRejectionCallback = true) :
    applyEvents e (reports.map fun p =>
        { promise := p.1, reason := p.2, isHandled := false }) =
      { e with rejections :=
          (reports.map fun p => ({ promise := p.1, reason := p.2 } : RejNode)).reverse
            ++ e.rejections } := by
  induction reports generalizing e with
  | nil => simp [applyEvents]
  | cons p rest ih =>
    rw [List.map_cons, applyEvents_cons]
    have hstep : js__on_promise_rejection e p.1 p.2 false =
        { e with rejections := { promise := p.1, reason := p.2 } :: e.rejections } := by
      unfold js__on_promise_rejection
      simp [hcb]
    rw [hstep, ih _ (by simp [hcb])]
    simp

/-- C2 (amended): a microtask drain first runs the pending engine jobs to
completion and then delivers the still-tracked unhandled-rejection
notifications, once per tracked node, in reverse insertion order (the most
recently reported rejection first, since reports are prepended and the
flush walks from the head); with the engine reporting each promise at most
once, each promise is notified at most once. -/
theorem unhandled_rejections_flushed_in_reverse_insertion_order
    (e : MicroEnv) (reports : List (Nat × Nat))
    (hcb : e.hasRejectionCallback = true) (hrej : e.rejections = [])
    (hdel : e.delivered = []) :
    (js__on_run_microtasks { e with jobs := [Job.mk []
        (reports.map fun p =>
          { promise := p.1, reason := p.2, isHandled := false })] }).delivered =
      (reports.map fun p => ({ promise := p.1, reason := p.2 } : RejNode)).reverse ∧
    (js__on_run_microtasks { e with jobs := [Job.mk []
        (reports.map fun p =>
          { promise := p.1, reason := p.2, isHandled := false })] }).rejections = [] ∧
    (js__on_run_microtasks { e with jobs := [Job.mk []
        (reports.map fun p =>
          { promise := p.1, reason := p.2, isHandled := false })] }).jobs = [] ∧
    ((reports.map Prod.fst).Nodup → ∀ q : Nat,
      ((js__on_run_microtasks { e with jobs := [Job.mk []
          (reports.map fun p =>
            { promise := p.1, reason := p.2, isHandled := false })] }).delivered.map
        RejNode.promise).count q ≤ 1) := by
  have hflush :
      js__on_run_microtasks { e with jobs := [Job.mk []
        (reports.map fun p =>
          { promise := p.1, reason := p.2, isHandled := false })] } =
      { e with jobs := [],
               rejections := [],
               delivered :=
                 (reports.map fun p =>
                   ({ promise := p.1, reason := p.2 } : RejNode)).reverse } := by
    unfold js__on_run_microtasks
    rw [show ({ e with jobs := [Job.mk []
        (reports.map fun p =>
          { promise := p.1, reason := p.2, isHandled := false })] } : MicroEnv).jobs =
        [Job.mk [] (reports.map fun p =>
          { promise := p.1, reason := p.2, isHandled := false })] from rfl]
    rw [runQueue_single]
    rw [applyEvents_unhandled reports _ (by simp [hcb])]
    simp [hcb, hrej, hdel]
  refine ⟨by rw [hflush], by rw [hflush], by rw [hflush], ?_⟩
  intro hnd q
  rw [hflush]
  simp only [List.map_reverse, List.count_reverse, List.map_map]
  have hmap : (RejNode.promise ∘ fun p : Nat × Nat =>
      ({ promise := p.1, reason := p.2 } : RejNode)) = Prod.fst := rfl
  rw [hmap]
  exact List.nodup_iff_count_le_one.mp hnd q

/-- Witness for `unhandled_rejections_flushed_in_reverse_insertion_order`
on two distinct rejected promises. -/
theorem unhandled_rejections_flushed_witness :
    (js__on_run_microtasks
      { depth := 0, jobs := [Job.mk []
          ([((1 : Nat), (10 : Nat)), (2, 20)].map fun p =>
            { promise := p.1, reason := p.2, isHandled := false })],
        rejections := [], delivered := [],
        hasRejectionCallback := true, hasUncaughtCallback := false,
        hasException := false, uncaught := 0 }).delivered =
      ([((1 : Nat), (10 : Nat)), (2, 20)].map fun p =>
        ({ promise := p.1, reason := p.2 } : RejNode)).reverse ∧
    ([((1 : Nat), (10 : Nat)), (2, 20)].map Prod.fst).Nodup := by
  have h :=
    unhandled_rejections_flushed_in_reverse_insertion_order
      { depth := 0, jobs := [Job.mk []
          ([((1 : Nat), (10 : Nat)), (2, 20)].map fun p =>
            { promise := p.1, reason := p.2, isHandled := false })],
        rejections := [], delivered := [],
        hasRejectionCallback := true, hasUncaughtCallback := false,
        hasException := false, uncaught := 0 }
      [((1 : Nat), (10 : Nat)), (2, 20)] rfl rfl rfl
  exact ⟨h.1, by decide⟩

/-- C2 counterexample: two promises reported as unhandled in the order
1 then 2 are delivered in the order 2 then 1 — the flush walks the
prepend-ordered list, so delivery is in reverse insertion order, not
insertion order. -/
theorem unhandled_rejections_not_delivered_in_insertion_order :
    (js__on_run_microtasks
      { depth := 0, jobs := [Job.mk []
          [{ promise := 1, reason := 10, isHandled := false },
           { promise := 2, reason := 20, isHandled := false }]],
        rejections := [], delivered := [],
        hasRejectionCallback := true, hasUncaughtCallback := false,
        hasException := false, uncaught := 0 }).delivered =
      [{ promise := 2, reason := 20 }, { promise := 1, reason := 10 }] ∧
    (js__on_run_microtasks
      { depth := 0, jobs := [Job.mk []
          [{ promise := 1, reason := 10, isHandled := false },
           { promise := 2, reason := 20, isHandled := false }]],
        rejections := [], delivered := [],
        hasRejectionCallback := true, hasUncaughtCallback := false,
        hasException := false, uncaught := 0 }).delivered ≠
      [{ promise := 1, reason := 10 }, { promise := 2, reason := 20 }] := by
  constructor <;>
    · simp only [js__on_run_microtasks, runQueue_single]
      decide

end LibQjs
